import Mathlib

/-!
Shallow embedding of the memory-allocation sampler in
src/stateless-sampling/sampler/sampler.c (the interposed malloc/free
wrappers, the Poisson-by-bytes and stateless address-hash samplers, and
the fixed-capacity selected-address sets), together with theorems that
settle the specification claims about it.

Modelling conventions:
* C `size_t` sizes and `uintptr_t` addresses are `Nat` (a null pointer is 0);
  `int64_t` counters are `Int`; 64-bit overflow is applied explicitly
  (`% 2^64`) where the C left shift can wrap.
* `draw_geometric_bytes` uses floating point (`-log(u) * mean`), which has
  no shallow embedding; sampler functions instead consume an oracle stream
  `draws : List Int` of geometric draws and return `none` if the stream is
  exhausted.  All algebraic claims hold for every stream.
* The host allocator's answer is an input (`host_ret`, 0 for failure), and
  each wrapper result records whether the host primitive was reached.
* `printf` emission is modelled by an optional record value per call.
-/

namespace Sampler

/-- Sampling schemes (sampler.h / sampler.c). -/
inductive SamplingScheme where
  | NONE
  | STATELESS_HASH
  | POISSON
  | HYBRID_SMALL_POISSON_LARGE_HASH
  | PAGE_HASH
  deriving DecidableEq, Repr

/-- DEFAULT_POISSON_MEAN from sampler.h. -/
def DEFAULT_POISSON_MEAN : Int := 4096

/-- DEFAULT_HASH_MASK from sampler.h (1 in 256). -/
def DEFAULT_HASH_MASK : Nat := 0xFF

/-- SAMPLED_SET_SIZE from sampler.c (1M entries). -/
def SAMPLED_SET_SIZE : Nat := 1048576

/-- 2^64, the modulus of C's 64-bit unsigned arithmetic. -/
def U64 : Nat := 18446744073709551616

/-- Thread-local sampler state (struct ThreadSamplerState, sampler.c).
The RNG fields are replaced by the draw-stream oracle. -/
structure ThreadSamplerState where
  pois_bytes_until_next : Int
  pois_bytes_inited : Bool
  hash_running_bytes : Int
  deriving DecidableEq, Repr

/-- The three xor-shift passes applied to an address, with the 64-bit wrap
of the left shift made explicit (body of was_sampled_hash / sample_hash). -/
def xorshiftAddr (p : Nat) : Nat :=
  let h1 := p ^^^ (p >>> 12)
  let h2 := h1 ^^^ ((h1 <<< 25) % U64)
  h2 ^^^ (h2 >>> 27)

/-- was_sampled_hash (sampler.c lines 91-98): stateless re-hash of the
address against DEFAULT_HASH_MASK. -/
def was_sampled_hash (p : Nat) : Bool :=
  xorshiftAddr p &&& DEFAULT_HASH_MASK == 0

/-- sample_hash (sampler.c lines 251-262): on a mask hit return the
accumulated running bytes and reset them, otherwise return 0. -/
def sample_hash (p : Nat) (t : ThreadSamplerState) : Int × ThreadSamplerState :=
  if xorshiftAddr p &&& DEFAULT_HASH_MASK = 0 then
    (t.hash_running_bytes, { t with hash_running_bytes := 0 })
  else
    (0, t)

/-- The do-while loop of sample_poisson (lines 241-244): subtract a fresh
draw and bump nsamples, repeating while the remainder stays non-negative.
Returns the final remainder, final nsamples and the unconsumed draws. -/
def poissonLoop : List Int → Int → Int → Option (Int × Int × List Int)
  | [], _, _ => none
  | g :: ds, remaining, nsamples =>
    let remaining' := remaining - g
    let nsamples' := nsamples + 1
    if 0 ≤ remaining' then poissonLoop ds remaining' nsamples'
    else some (remaining', nsamples', ds)

/-- The firing tail of sample_poisson (lines 238-247): divide the counter
by the mean, run the draw loop, store the remainder, report nsamples*M. -/
def poissonFire (M : Int) (t : ThreadSamplerState) (remaining : Int)
    (draws : List Int) : Option (Int × ThreadSamplerState × List Int) :=
  match poissonLoop draws (remaining % M) (remaining / M) with
  | none => none
  | some (r, n, ds) =>
    some (n * M, { t with pois_bytes_until_next := r }, ds)

/-- sample_poisson (sampler.c lines 223-248). -/
def sample_poisson (M : Int) (t : ThreadSamplerState) (draws : List Int) :
    Option (Int × ThreadSamplerState × List Int) :=
  if t.pois_bytes_until_next < 0 then
    some (0, t, draws)
  else if t.pois_bytes_inited then
    poissonFire M t t.pois_bytes_until_next draws
  else
    match draws with
    | [] => none
    | g :: ds =>
      let remaining := t.pois_bytes_until_next - g
      let t1 := { t with pois_bytes_inited := true }
      if remaining < 0 then
        some (0, { t1 with pois_bytes_until_next := remaining }, ds)
      else
        poissonFire M t1 remaining ds

/-- Probe index of the open-addressed sampled sets: home slot (ptr >> 4)
mod capacity, then linear stepping. -/
def probeIdx (p i : Nat) : Nat :=
  ((p >>> 4) % SAMPLED_SET_SIZE + i) % SAMPLED_SET_SIZE

/-- Loop body of mark_sampled_poisson / mark_sampled_hash (lines 48-72),
probing slots i, i+1, ... while fuel lasts.  A set is a total map from
slot index to stored address, 0 standing for the C NULL (empty slot). -/
def markFrom (s : Nat → Nat) (p : Nat) : Nat → Nat → (Nat → Nat)
  | _, 0 => s
  | i, fuel + 1 =>
    if s (probeIdx p i) = 0 ∨ s (probeIdx p i) = p then
      Function.update s (probeIdx p i) p
    else
      markFrom s p (i + 1) fuel

/-- mark_sampled_poisson / mark_sampled_hash: probe at most 100 slots. -/
def mark_sampled (s : Nat → Nat) (p : Nat) : Nat → Nat :=
  markFrom s p 0 100

/-- Loop body of was_sampled_poisson (lines 74-89): a matching slot is
cleared and reports true; an empty slot stops the walk with false. -/
def wasFrom (s : Nat → Nat) (p : Nat) : Nat → Nat → Bool × (Nat → Nat)
  | _, 0 => (false, s)
  | i, fuel + 1 =>
    if s (probeIdx p i) = p then
      (true, Function.update s (probeIdx p i) 0)
    else if s (probeIdx p i) = 0 then
      (false, s)
    else
      wasFrom s p (i + 1) fuel

/-- was_sampled_poisson: probe-and-remove over at most 100 slots. -/
def was_sampled (s : Nat → Nat) (p : Nat) : Bool × (Nat → Nat) :=
  wasFrom s p 0 100

/-- Process-wide configuration fixed at init_sampler (lines 157-197). -/
structure Config where
  g_scheme : SamplingScheme
  g_combined_mode : Bool
  g_poisson_mean : Int
  deriving Repr

/-- The mutable state a wrapper call can read or write: the caller
thread's state and guard, and the two shared sampled-address sets. -/
structure GlobalState where
  tstate : ThreadSamplerState
  t_in_wrapper : Bool
  g_sampled_addrs_poisson : Nat → Nat
  g_sampled_addrs_hash : Nat → Nat

/-- One emitted MALLOC line, timestamp omitted (it is wall-clock time).
`single` is the legacy-mode printf (line 363): address, actual size,
reported size.  `combined` is the combined-mode printf (line 343). -/
inductive MallocRecord where
  | single (addr : Nat) (actual_size : Nat) (reported : Int)
  | combined (addr : Nat) (actual_size : Nat) (pois_tracked : Bool)
      (pois_size : Int) (hash_tracked : Bool) (hash_size : Int)
  deriving DecidableEq, Repr

/-- The numeric fields printed after the address, straight from the
printf format strings of sampler.c. -/
def MallocRecord.numericFields : MallocRecord → List Int
  | .single _ sz rep => [(sz : Int), rep]
  | .combined _ sz pt ps ht hs =>
    [(sz : Int), if pt then 1 else 0, ps, if ht then 1 else 0, hs]

/-- One emitted FREE line, timestamp omitted.  `single` is the legacy
printf (line 410), `combined` the combined-mode printf (line 391). -/
inductive FreeRecord where
  | single (addr : Nat)
  | combined (addr : Nat) (pois_tracked : Bool) (hash_tracked : Bool)
  deriving DecidableEq, Repr

/-- Everything observable about one malloc-wrapper call. -/
structure MallocOut where
  ret : Nat
  host_called : Bool
  record : Option MallocRecord
  state : GlobalState
  draws : List Int

/-- The interposed malloc (sampler.c lines 306-372).  `host_ret` is what
real_malloc would return (0 = NULL); `host_called` records whether
real_malloc was actually reached. -/
def malloc (cfg : Config) (st : GlobalState) (size : Nat) (host_ret : Nat)
    (draws : List Int) : Option MallocOut :=
  if st.t_in_wrapper then
    some { ret := 0, host_called := false, record := none, state := st, draws := draws }
  else
    let ptr := host_ret
    if ptr = 0 then
      some { ret := 0, host_called := true, record := none,
             state := { st with t_in_wrapper := false }, draws := draws }
    else if cfg.g_combined_mode then
      let t0 := { st.tstate with
                  pois_bytes_until_next := st.tstate.pois_bytes_until_next + size,
                  hash_running_bytes := st.tstate.hash_running_bytes + size }
      match sample_poisson cfg.g_poisson_mean t0 draws with
      | none => none
      | some (pois_size, t1, ds1) =>
        let pois_tracked := 0 < pois_size
        let poisSet := if pois_tracked then
            mark_sampled st.g_sampled_addrs_poisson ptr
          else st.g_sampled_addrs_poisson
        let (hash_size, t2) := sample_hash ptr t1
        let hash_tracked := 0 < hash_size
        let hashSet := if hash_tracked then
            mark_sampled st.g_sampled_addrs_hash ptr
          else st.g_sampled_addrs_hash
        some { ret := ptr, host_called := true,
               record := some (.combined ptr size pois_tracked pois_size
                 hash_tracked hash_size),
               state := { tstate := t2, t_in_wrapper := false,
                          g_sampled_addrs_poisson := poisSet,
                          g_sampled_addrs_hash := hashSet },
               draws := ds1 }
    else
      let t0 := { st.tstate with
                  hash_running_bytes := st.tstate.hash_running_bytes + size,
                  pois_bytes_until_next := st.tstate.pois_bytes_until_next + size }
      let sampled : Option (Int × ThreadSamplerState × List Int) :=
        match cfg.g_scheme with
        | .NONE => some ((size : Int), t0, draws)
        | .STATELESS_HASH =>
          let (r, t1) := sample_hash ptr t0
          some (r, t1, draws)
        | .POISSON => sample_poisson cfg.g_poisson_mean t0 draws
        | _ => some (0, t0, draws)
      match sampled with
      | none => none
      | some (reported, t1, ds1) =>
        if reported ≠ 0 then
          let poisSet := if cfg.g_scheme = .POISSON then
              mark_sampled st.g_sampled_addrs_poisson ptr
            else st.g_sampled_addrs_poisson
          let hashSet := if cfg.g_scheme = .STATELESS_HASH then
              mark_sampled st.g_sampled_addrs_hash ptr
            else st.g_sampled_addrs_hash
          some { ret := ptr, host_called := true,
                 record := some (.single ptr size reported),
                 state := { tstate := t1, t_in_wrapper := false,
                            g_sampled_addrs_poisson := poisSet,
                            g_sampled_addrs_hash := hashSet },
                 draws := ds1 }
        else
          some { ret := ptr, host_called := true, record := none,
                 state := { tstate := t1, t_in_wrapper := false,
                            g_sampled_addrs_poisson := st.g_sampled_addrs_poisson,
                            g_sampled_addrs_hash := st.g_sampled_addrs_hash },
                 draws := ds1 }

/-- Everything observable about one free-wrapper call. -/
structure FreeOut where
  host_freed : Bool
  record : Option FreeRecord
  state : GlobalState

/-- The interposed free (sampler.c lines 374-420).  `host_freed` records
whether real_free(ptr) was reached. -/
def free (cfg : Config) (st : GlobalState) (ptr : Nat) : FreeOut :=
  if ptr = 0 then
    { host_freed := false, record := none, state := st }
  else if st.t_in_wrapper then
    { host_freed := false, record := none, state := st }
  else if cfg.g_combined_mode then
    let (pois_tracked, poisSet) := was_sampled st.g_sampled_addrs_poisson ptr
    let hash_tracked := was_sampled_hash ptr
    { host_freed := true,
      record := some (.combined ptr pois_tracked hash_tracked),
      state := { st with
                 g_sampled_addrs_poisson := poisSet,
                 t_in_wrapper := false } }
  else
    let logAndSet : Bool × (Nat → Nat) :=
      match cfg.g_scheme with
      | .NONE => (true, st.g_sampled_addrs_poisson)
      | .POISSON => was_sampled st.g_sampled_addrs_poisson ptr
      | .STATELESS_HASH => (was_sampled_hash ptr, st.g_sampled_addrs_poisson)
      | _ => (false, st.g_sampled_addrs_poisson)
    { host_freed := true,
      record := if logAndSet.1 then some (.single ptr) else none,
      state := { st with
                 g_sampled_addrs_poisson := logAndSet.2,
                 t_in_wrapper := false } }

/-- One allocation step of the single-scheme Poisson path: the interposer
adds the size to the counter (line 352) and then calls sample_poisson. -/
def poissonAllocStep (M : Int) (t : ThreadSamplerState) (size : Nat)
    (draws : List Int) : Option (Int × ThreadSamplerState × List Int) :=
  sample_poisson M
    { t with pois_bytes_until_next := t.pois_bytes_until_next + size } draws

/-- A sequence of Poisson-mode allocations on one thread, collecting the
reported weights in order. -/
def poissonRun (M : Int) (t : ThreadSamplerState) :
    List Nat → List Int → Option (List Int × ThreadSamplerState × List Int)
  | [], draws => some ([], t, draws)
  | s :: ss, draws =>
    match poissonAllocStep M t s draws with
    | none => none
    | some (w, t', ds') =>
      match poissonRun M t' ss ds' with
      | none => none
      | some (ws, t'', ds'') => some (w :: ws, t'', ds'')

/-! ### Helper lemmas on the Poisson sampler -/

/-- Unrolling of the draw loop: a successful run consumes a non-empty
chunk `c` of the stream, bumps `nsamples` once per draw, subtracts the
chunk sum, ends strictly negative, and every proper intermediate
remainder was still non-negative. -/
lemma poissonLoop_spec :
    ∀ (ds : List Int) (rb n r n' : Int) (ds' : List Int),
      poissonLoop ds rb n = some (r, n', ds') →
      ∃ c : List Int, ds = c ++ ds' ∧ c ≠ [] ∧ n' = n + c.length ∧
        r = rb - c.sum ∧ r < 0 ∧
        ∀ m : Nat, m < c.length → m ≠ 0 → 0 ≤ rb - (c.take m).sum
  | [], rb, n, r, n', ds', h => by simp [poissonLoop] at h
  | g :: ds, rb, n, r, n', ds', h => by
    rw [poissonLoop] at h
    by_cases hge : 0 ≤ rb - g
    · rw [if_pos hge] at h
      obtain ⟨c, hds, hne, hn, hr, hrlt, hpre⟩ :=
        poissonLoop_spec ds (rb - g) (n + 1) r n' ds' h
      refine ⟨g :: c, by simp [hds], by simp, ?_, ?_, hrlt, ?_⟩
      · rw [hn]; simp only [List.length_cons]; push_cast; ring
      · rw [hr]; simp; ring
      · intro m hm hm0
        match m with
        | m' + 1 =>
          rw [List.take_succ_cons, List.sum_cons]
          rcases Nat.eq_zero_or_pos m' with h0 | hpos
          · subst h0; simpa using hge
          · have h1 := hpre m' (by simpa using hm) (Nat.pos_iff_ne_zero.mp hpos)
            omega
    · rw [if_neg hge] at h
      simp only [Option.some.injEq, Prod.mk.injEq] at h
      obtain ⟨hr, hn, hds⟩ := h
      refine ⟨[g], by simp [hds], by simp, by simpa using hn.symm, ?_, ?_, ?_⟩
      · simp [← hr]
      · omega
      · intro m hm hm0; simp at hm; omega

/-- Unrolling of the firing tail: division by the mean, the loop, and the
store-back, with the inited flag and the hash accumulator untouched. -/
lemma poissonFire_spec (M : Int) (t : ThreadSamplerState) (b w : Int)
    (draws ds' : List Int) (t' : ThreadSamplerState)
    (h : poissonFire M t b draws = some (w, t', ds')) :
    ∃ c : List Int, draws = c ++ ds' ∧ c ≠ [] ∧
      w = (b / M + c.length) * M ∧
      t'.pois_bytes_until_next = b % M - c.sum ∧
      t'.pois_bytes_until_next < 0 ∧
      t'.pois_bytes_inited = t.pois_bytes_inited ∧
      t'.hash_running_bytes = t.hash_running_bytes ∧
      ∀ m : Nat, m < c.length → m ≠ 0 → 0 ≤ b % M - (c.take m).sum := by
  unfold poissonFire at h
  cases hl : poissonLoop draws (b % M) (b / M) with
  | none => rw [hl] at h; simp at h
  | some v =>
    obtain ⟨r, n, ds⟩ := v
    rw [hl] at h
    simp only [Option.some.injEq, Prod.mk.injEq] at h
    obtain ⟨hw, ht', hds⟩ := h
    obtain ⟨c, hdraws, hne, hn, hr, hrlt, hpre⟩ := poissonLoop_spec _ _ _ _ _ _ hl
    subst hds ht'
    exact ⟨c, hdraws, hne, by rw [← hw, hn], by simpa using hr, by simpa using hrlt,
      rfl, rfl, hpre⟩

/-! ### Claims C3 and C4: the Poisson sampler -/

/-- C3, counterexample to the claim as stated: on a first call with a
non-negative counter, when the counter stays non-negative after the
initial draw the sampler does NOT return 0 — it proceeds to the sampling
loop and fires.  With counter 10, initial draw 3 (10 - 3 = 7 ≥ 0) and a
following draw 20, the call returns weight 4096, not 0. -/
theorem poisson_first_call_cex :
    sample_poisson 4096 ⟨10, false, 0⟩ [3, 20] = some (4096, ⟨-13, true, 0⟩, []) ∧
    (0 : Int) ≤ 10 - 3 ∧ (4096 : Int) ≠ 0 := by decide

/-- C3 (amended): on the first Poisson call of a thread with a
non-negative counter, the sampler subtracts the initial geometric draw
and marks the state initialized; if the counter became NEGATIVE it is
stored and the call returns 0; if it is still non-negative the call
continues into the sampling loop and fires (positive weight, counter
stored negative). -/
theorem poisson_first_call :
    (∀ (M : Int) (t : ThreadSamplerState) (g : Int) (ds : List Int),
      t.pois_bytes_inited = false → 0 ≤ t.pois_bytes_until_next →
      t.pois_bytes_until_next - g < 0 →
      sample_poisson M t (g :: ds) =
        some (0, ⟨t.pois_bytes_until_next - g, true, t.hash_running_bytes⟩, ds)) ∧
    (∀ (M : Int) (t : ThreadSamplerState) (g : Int) (ds ds' : List Int)
      (w : Int) (t' : ThreadSamplerState),
      0 < M → t.pois_bytes_inited = false → 0 ≤ t.pois_bytes_until_next →
      0 ≤ t.pois_bytes_until_next - g →
      sample_poisson M t (g :: ds) = some (w, t', ds') →
      0 < w ∧ t'.pois_bytes_inited = true ∧ t'.pois_bytes_until_next < 0) := by
  constructor
  · intro M t g ds hinit hb hneg
    obtain ⟨b, i, ha⟩ := t
    simp only at hinit hb hneg
    subst hinit
    simp [sample_poisson, not_lt.mpr hb, hneg]
  · intro M t g ds ds' w t' hM hinit hb hpos h
    obtain ⟨b, i, ha⟩ := t
    simp only at hinit hb hpos
    subst hinit
    unfold sample_poisson at h
    rw [if_neg (not_lt.mpr hb)] at h
    simp only [Bool.false_eq_true, if_false, if_neg (not_lt.mpr hpos)] at h
    obtain ⟨c, hdraws, hne, hw, hbytes, hlt, hini, hha, hpre⟩ :=
      poissonFire_spec M _ _ _ _ _ _ h
    refine ⟨?_, by simpa using hini, hlt⟩
    have hq : 0 ≤ (b - g) / M := Int.ediv_nonneg hpos (le_of_lt hM)
    have hlen : (1 : Int) ≤ (c.length : Int) := by
      have := List.length_pos.mpr hne
      exact_mod_cast this
    rw [hw]
    have : (0 : Int) < (b - g) / M + c.length := by linarith
    exact mul_pos this hM

/-- C3 witness: the theorem applied at concrete inputs.  First branch:
counter 10, draw 50, counter goes negative, the call returns 0.  Second
branch: counter 10, draws [3, 20], the call fires. -/
theorem poisson_first_call_witness :
    (sample_poisson 4096 ⟨10, false, 0⟩ [50] = some (0, ⟨10 - 50, true, 0⟩, [])) ∧
    ((0 : Int) < 4096 ∧
      (ThreadSamplerState.mk (-13) true 0).pois_bytes_inited = true ∧
      (ThreadSamplerState.mk (-13) true 0).pois_bytes_until_next < 0) :=
  ⟨poisson_first_call.1 4096 ⟨10, false, 0⟩ 50 [] rfl (by decide) (by decide),
   poisson_first_call.2 4096 ⟨10, false, 0⟩ 3 [20] [] 4096 ⟨-13, true, 0⟩
     (by decide) rfl (by decide) (by decide) (by decide)⟩

/-- C4: a firing Poisson call on an initialized state with non-negative
counter b computes nsamples = b / M and remaining = b mod M, consumes a
non-empty chunk c of draws (one loop iteration each, so nsamples is
incremented at least once), stops at the first draw that makes the
remainder negative, stores the negative remainder back, and returns
(b / M + |c|) * M — a positive multiple of M. -/
theorem poisson_fire_weight (M : Int) (t : ThreadSamplerState) (w : Int)
    (draws ds' : List Int) (t' : ThreadSamplerState)
    (hM : 0 < M) (hinit : t.pois_bytes_inited = true)
    (hb : 0 ≤ t.pois_bytes_until_next)
    (h : sample_poisson M t draws = some (w, t', ds')) :
    ∃ c : List Int, draws = c ++ ds' ∧ 1 ≤ c.length ∧
      w = (t.pois_bytes_until_next / M + c.length) * M ∧
      t'.pois_bytes_until_next = t.pois_bytes_until_next % M - c.sum ∧
      t'.pois_bytes_until_next < 0 ∧ 0 < w ∧ M ∣ w ∧
      (∀ m : Nat, m < c.length → m ≠ 0 →
        0 ≤ t.pois_bytes_until_next % M - (c.take m).sum) := by
  unfold sample_poisson at h
  rw [if_neg (not_lt.mpr hb), hinit] at h
  simp only [if_true] at h
  obtain ⟨c, hdraws, hne, hw, hbytes, hlt, _, _, hpre⟩ :=
    poissonFire_spec M _ _ _ _ _ _ h
  have hlen : 1 ≤ c.length := List.length_pos.mpr hne
  have hq : 0 ≤ t.pois_bytes_until_next / M := Int.ediv_nonneg hb (le_of_lt hM)
  have hwpos : 0 < w := by
    rw [hw]
    have hl : (1 : Int) ≤ (c.length : Int) := by exact_mod_cast hlen
    have : (0 : Int) < t.pois_bytes_until_next / M + c.length := by linarith
    exact mul_pos this hM
  exact ⟨c, hdraws, hlen, hw, hbytes, hlt, hwpos, by rw [hw]; exact dvd_mul_left M _,
    hpre⟩

/-- C4 witness: counter 5000, M = 4096 — nsamples starts at 1,
remaining at 904, one draw of 1000 ends the loop, weight 2 * 4096. -/
theorem poisson_fire_weight_witness :
    ∃ c : List Int, ([1000, 5000] : List Int) = c ++ [5000] ∧ 1 ≤ c.length ∧
      (8192 : Int) = ((5000 : Int) / 4096 + c.length) * 4096 ∧
      (-96 : Int) = (5000 : Int) % 4096 - c.sum ∧
      (-96 : Int) < 0 ∧ (0 : Int) < 8192 ∧ (4096 : Int) ∣ 8192 ∧
      (∀ m : Nat, m < c.length → m ≠ 0 →
        0 ≤ (5000 : Int) % 4096 - (c.take m).sum) :=
  poisson_fire_weight 4096 ⟨5000, true, 0⟩ 8192 [1000, 5000] [5000]
    ⟨-96, true, 0⟩ (by decide) rfl (by decide) (by decide)

/-! ### Claim C5: the counter accounting identity -/

/-- One Poisson-mode allocation (size added by the interposer, then
sample_poisson): the new counter differs from old + size - weight by
exactly the gap between the quantized loop credit M*K (K loop
iterations) and the sum of the draws actually consumed. -/
lemma poissonAllocStep_spec (M : Int) (t : ThreadSamplerState) (size : Nat)
    (draws ds' : List Int) (w : Int) (t' : ThreadSamplerState)
    (h : poissonAllocStep M t size draws = some (w, t', ds')) :
    ∃ (c : List Int) (K : Nat), draws = c ++ ds' ∧ K ≤ c.length ∧
      t'.pois_bytes_until_next =
        t.pois_bytes_until_next + size - w + (M * K - c.sum) := by
  obtain ⟨b, i, ha⟩ := t
  unfold poissonAllocStep sample_poisson at h
  simp only at h
  by_cases hneg : b + (size : Int) < 0
  · rw [if_pos hneg] at h
    simp only [Option.some.injEq, Prod.mk.injEq] at h
    obtain ⟨hw, ht', hds⟩ := h
    refine ⟨[], 0, by simp [hds], by simp, ?_⟩
    rw [← ht']
    simp [← hw]
  · rw [if_neg hneg] at h
    cases i with
    | true =>
      simp only [if_true] at h
      obtain ⟨c, hdraws, hne, hw, hbytes, hlt, _, _, _⟩ :=
        poissonFire_spec M _ _ _ _ _ _ h
      refine ⟨c, c.length, hdraws, le_refl _, ?_⟩
      rw [hbytes, hw, Int.emod_def]
      simp only
      ring
    | false =>
      simp only [Bool.false_eq_true, if_false] at h
      cases draws with
      | nil => simp at h
      | cons g ds =>
        simp only at h
        by_cases hr : b + (size : Int) - g < 0
        · rw [if_pos hr] at h
          simp only [Option.some.injEq, Prod.mk.injEq] at h
          obtain ⟨hw, ht', hds⟩ := h
          refine ⟨[g], 0, by simp [hds], by simp, ?_⟩
          rw [← ht']
          simp [← hw]
          ring
        · rw [if_neg hr] at h
          obtain ⟨c, hdraws, hne, hw, hbytes, hlt, _, _, _⟩ :=
            poissonFire_spec M _ _ _ _ _ _ h
          refine ⟨g :: c, c.length, by simp [hdraws], by simp, ?_⟩
          rw [hbytes, hw, Int.emod_def]
          simp only [List.sum_cons]
          ring

/-- C5, counterexample to the claim as stated: one allocation of 10 bytes
from the pristine state with draws 3 (initial) and 20 (loop) leaves the
counter at -13, while sizes-minus-reported-weights is 10 - 4096 = -4086. -/
theorem poisson_counter_invariant_cex :
    poissonRun 4096 ⟨0, false, 0⟩ [10] [3, 20] =
      some ([4096], ⟨-13, true, 0⟩, []) ∧
    (-13 : Int) ≠ 0 + 10 - 4096 := by decide

/-- C5 (amended): after any single-thread sequence of Poisson-mode
allocations, bytes_until_next = old + Σ sizes - Σ reported weights
+ (M*K - Σ consumed draws), where c is the chunk of the draw stream the
run consumed and K (≤ |c|) counts the sampling-loop iterations; the
uncorrected identity bytes_until_next = Σ sizes - Σ weights does not
hold. -/
theorem poisson_counter_accounting :
    ∀ (M : Int) (sizes : List Nat) (t : ThreadSamplerState)
      (draws ds' : List Int) (ws : List Int) (t' : ThreadSamplerState),
      poissonRun M t sizes draws = some (ws, t', ds') →
      ∃ (c : List Int) (K : Nat), draws = c ++ ds' ∧ K ≤ c.length ∧
        t'.pois_bytes_until_next =
          t.pois_bytes_until_next + (sizes.sum : Int) - ws.sum +
            (M * K - c.sum) := by
  intro M sizes
  induction sizes with
  | nil =>
    intro t draws ds' ws t' h
    rw [poissonRun] at h
    simp only [Option.some.injEq, Prod.mk.injEq] at h
    obtain ⟨hws, ht', hds⟩ := h
    refine ⟨[], 0, by simp [hds], by simp, ?_⟩
    rw [← ht', ← hws]
    simp
  | cons s ss ih =>
    intro t draws ds' ws t' h
    rw [poissonRun] at h
    cases hstep : poissonAllocStep M t s draws with
    | none => rw [hstep] at h; simp at h
    | some v =>
      obtain ⟨w, t1, ds1⟩ := v
      rw [hstep] at h
      dsimp only at h
      cases hrun : poissonRun M t1 ss ds1 with
      | none => rw [hrun] at h; simp at h
      | some v2 =>
        obtain ⟨ws1, t2, ds2⟩ := v2
        rw [hrun] at h
        dsimp only at h
        simp only [Option.some.injEq, Prod.mk.injEq] at h
        obtain ⟨hws, ht', hds⟩ := h
        obtain ⟨c1, K1, hd1, hk1, he1⟩ :=
          poissonAllocStep_spec M t s draws ds1 w t1 hstep
        obtain ⟨c2, K2, hd2, hk2, he2⟩ := ih t1 ds1 ds2 ws1 t2 hrun
        refine ⟨c1 ++ c2, K1 + K2, ?_, ?_, ?_⟩
        · rw [hd1, hd2, hds, List.append_assoc]
        · simp only [List.length_append]; omega
        · rw [← ht', he2, he1, ← hws]
          simp only [List.sum_cons, List.sum_append]
          push_cast
          ring

/-- C5 witness: the accounting theorem applied to the counterexample run
(weights [4096], consumed draws [3, 20], K = 1 loop iteration:
-13 = 0 + 10 - 4096 + (4096*1 - 23)). -/
theorem poisson_counter_accounting_witness :
    ∃ (c : List Int) (K : Nat), ([3, 20] : List Int) = c ++ [] ∧
      K ≤ c.length ∧
      (-13 : Int) = 0 + (([10] : List Nat).sum : Int) -
        ([4096] : List Int).sum + (4096 * K - c.sum) :=
  poisson_counter_accounting 4096 [10] ⟨0, false, 0⟩ [3, 20] [] [4096]
    ⟨-13, true, 0⟩ (by decide)

/-! ### Claim C9: the selected-address set -/

/-- If slot j is the first probed slot that is empty or already holds p,
the insert loop writes p there. -/
lemma markFrom_found :
    ∀ (fuel i j : Nat) (s : Nat → Nat) (p : Nat),
      i ≤ j → j < i + fuel →
      (s (probeIdx p j) = 0 ∨ s (probeIdx p j) = p) →
      (∀ k, i ≤ k → k < j → s (probeIdx p k) ≠ 0 ∧ s (probeIdx p k) ≠ p) →
      markFrom s p i fuel = Function.update s (probeIdx p j) p
  | 0, i, j, _, _, hij, hlt, _, _ => absurd hlt (by omega)
  | fuel + 1, i, j, s, p, hij, hlt, hhit, hmiss => by
    rw [markFrom]
    by_cases hc : s (probeIdx p i) = 0 ∨ s (probeIdx p i) = p
    · rw [if_pos hc]
      have hji : j = i := by
        by_contra hne
        have hij' : i < j := lt_of_le_of_ne hij (Ne.symm hne)
        rcases hc with h0 | hp
        · exact (hmiss i le_rfl hij').1 h0
        · exact (hmiss i le_rfl hij').2 hp
      rw [hji]
    · rw [if_neg hc]
      have hne : i ≠ j := by
        intro he
        exact hc (he ▸ hhit)
      exact markFrom_found fuel (i + 1) j s p (by omega) (by omega) hhit
        (fun k hk1 hk2 => hmiss k (by omega) hk2)

/-- If every probed slot is full with a foreign address, insert no-ops. -/
lemma markFrom_saturated :
    ∀ (fuel i : Nat) (s : Nat → Nat) (p : Nat),
      (∀ k, i ≤ k → k < i + fuel →
        s (probeIdx p k) ≠ 0 ∧ s (probeIdx p k) ≠ p) →
      markFrom s p i fuel = s
  | 0, _, _, _, _ => rfl
  | fuel + 1, i, s, p, hmiss => by
    rw [markFrom]
    have hc : ¬(s (probeIdx p i) = 0 ∨ s (probeIdx p i) = p) := by
      rcases hmiss i le_rfl (by omega) with ⟨h0, hp⟩
      rintro (h | h)
      · exact h0 h
      · exact hp h
    rw [if_neg hc]
    exact markFrom_saturated fuel (i + 1) s p
      (fun k hk1 hk2 => hmiss k (by omega) (by omega))

/-- If slot j is the first probed slot that holds p or is empty, and it
holds p, the probe-and-remove loop clears it and returns true. -/
lemma wasFrom_found :
    ∀ (fuel i j : Nat) (s : Nat → Nat) (p : Nat),
      i ≤ j → j < i + fuel →
      s (probeIdx p j) = p →
      (∀ k, i ≤ k → k < j → s (probeIdx p k) ≠ p ∧ s (probeIdx p k) ≠ 0) →
      wasFrom s p i fuel = (true, Function.update s (probeIdx p j) 0)
  | 0, i, j, _, _, hij, hlt, _, _ => absurd hlt (by omega)
  | fuel + 1, i, j, s, p, hij, hlt, hhit, hmiss => by
    rw [wasFrom]
    by_cases hc : s (probeIdx p i) = p
    · rw [if_pos hc]
      have hji : j = i := by
        by_contra hne
        exact (hmiss i le_rfl (lt_of_le_of_ne hij (Ne.symm hne))).1 hc
      rw [hji]
    · rw [if_neg hc]
      have hne : i ≠ j := fun he => hc (he ▸ hhit)
      have hc0 : s (probeIdx p i) ≠ 0 :=
        (hmiss i le_rfl (by omega)).2
      rw [if_neg hc0]
      exact wasFrom_found fuel (i + 1) j s p (by omega) (by omega) hhit
        (fun k hk1 hk2 => hmiss k (by omega) hk2)

/-- If the walk reaches an empty slot before any slot holding p, the
probe-and-remove loop stops there and returns false without changes. -/
lemma wasFrom_empty :
    ∀ (fuel i j : Nat) (s : Nat → Nat) (p : Nat),
      i ≤ j → j < i + fuel →
      s (probeIdx p j) = 0 → s (probeIdx p j) ≠ p →
      (∀ k, i ≤ k → k < j → s (probeIdx p k) ≠ p ∧ s (probeIdx p k) ≠ 0) →
      wasFrom s p i fuel = (false, s)
  | 0, i, j, _, _, hij, hlt, _, _, _ => absurd hlt (by omega)
  | fuel + 1, i, j, s, p, hij, hlt, h0, hnp, hmiss => by
    rw [wasFrom]
    by_cases hji : j = i
    · subst hji
      rw [if_neg hnp, if_pos h0]
    · have hij' : i < j := lt_of_le_of_ne hij (Ne.symm hji)
      have hcp : s (probeIdx p i) ≠ p := (hmiss i le_rfl hij').1
      have hc0 : s (probeIdx p i) ≠ 0 := (hmiss i le_rfl hij').2
      rw [if_neg hcp, if_neg hc0]
      exact wasFrom_empty fuel (i + 1) j s p (by omega) (by omega) h0 hnp
        (fun k hk1 hk2 => hmiss k (by omega) hk2)

/-- If every probed slot is full with a foreign address, probe-and-remove
returns false without changes. -/
lemma wasFrom_saturated :
    ∀ (fuel i : Nat) (s : Nat → Nat) (p : Nat),
      (∀ k, i ≤ k → k < i + fuel →
        s (probeIdx p k) ≠ p ∧ s (probeIdx p k) ≠ 0) →
      wasFrom s p i fuel = (false, s)
  | 0, _, _, _, _ => rfl
  | fuel + 1, i, s, p, hmiss => by
    rw [wasFrom]
    rcases hmiss i le_rfl (by omega) with ⟨hp, h0⟩
    rw [if_neg hp, if_neg h0]
    exact wasFrom_saturated fuel (i + 1) s p
      (fun k hk1 hk2 => hmiss k (by omega) (by omega))

/-- C9: behaviour of the fixed-capacity selected-address set.  Insert
walks the probe chain of at most 100 slots and writes p into the first
slot that is empty or already equals p (a no-op when it already equals
p); probe-and-remove walks the same chain, clears a slot equal to p and
returns true, stops at an empty slot with false, and a fully foreign
chain leaves both operations as no-ops. -/
theorem sampled_set_spec :
    (∀ (s : Nat → Nat) (p j : Nat), j < 100 →
      (s (probeIdx p j) = 0 ∨ s (probeIdx p j) = p) →
      (∀ k, k < j → s (probeIdx p k) ≠ 0 ∧ s (probeIdx p k) ≠ p) →
      mark_sampled s p = Function.update s (probeIdx p j) p) ∧
    (∀ (s : Nat → Nat) (p j : Nat), j < 100 →
      s (probeIdx p j) = p →
      (∀ k, k < j → s (probeIdx p k) ≠ 0 ∧ s (probeIdx p k) ≠ p) →
      mark_sampled s p = s) ∧
    (∀ (s : Nat → Nat) (p j : Nat), j < 100 →
      s (probeIdx p j) = p →
      (∀ k, k < j → s (probeIdx p k) ≠ p ∧ s (probeIdx p k) ≠ 0) →
      was_sampled s p = (true, Function.update s (probeIdx p j) 0)) ∧
    (∀ (s : Nat → Nat) (p j : Nat), j < 100 →
      s (probeIdx p j) = 0 → s (probeIdx p j) ≠ p →
      (∀ k, k < j → s (probeIdx p k) ≠ p ∧ s (probeIdx p k) ≠ 0) →
      was_sampled s p = (false, s)) ∧
    (∀ (s : Nat → Nat) (p : Nat),
      (∀ k, k < 100 → s (probeIdx p k) ≠ 0 ∧ s (probeIdx p k) ≠ p) →
      mark_sampled s p = s ∧ was_sampled s p = (false, s)) := by
  refine ⟨?_, ?_, ?_, ?_, ?_⟩
  · intro s p j hj hhit hmiss
    exact markFrom_found 100 0 j s p (by omega) (by omega) hhit
      (fun k _ hk => hmiss k hk)
  · intro s p j hj hhit hmiss
    have h := markFrom_found 100 0 j s p (by omega) (by omega) (Or.inr hhit)
      (fun k _ hk => hmiss k hk)
    have h2 := Function.update_eq_self (probeIdx p j) s
    rw [hhit] at h2
    rw [mark_sampled, h]
    exact h2
  · intro s p j hj hhit hmiss
    exact wasFrom_found 100 0 j s p (by omega) (by omega) hhit
      (fun k _ hk => hmiss k hk)
  · intro s p j hj h0 hnp hmiss
    exact wasFrom_empty 100 0 j s p (by omega) (by omega) h0 hnp
      (fun k _ hk => hmiss k hk)
  · intro s p hmiss
    constructor
    · exact markFrom_saturated 100 0 s p (fun k _ hk => hmiss k hk)
    · exact wasFrom_saturated 100 0 s p
        (fun k _ hk => ⟨(hmiss k hk).2, (hmiss k hk).1⟩)

/-- C9 witness: on the empty set, inserting address 16 fills slot 1
(its home slot); with 16 stored at slot 1, probe-and-remove finds and
clears it; on the empty set probe-and-remove stops at once with false;
on a set full of the foreign address 7 both operations are no-ops. -/
theorem sampled_set_spec_witness :
    (mark_sampled (fun _ => 0) 16 = Function.update (fun _ => 0) (probeIdx 16 0) 16) ∧
    (was_sampled (Function.update (fun _ => 0) 1 16) 16 =
      (true, Function.update (Function.update (fun _ => 0) 1 16) (probeIdx 16 0) 0)) ∧
    (was_sampled (fun _ => 0) 16 = (false, fun _ => 0)) ∧
    (mark_sampled (fun _ => 7) 16 = (fun _ => 7) ∧
      was_sampled (fun _ => 7) 16 = (false, fun _ => 7)) :=
  ⟨sampled_set_spec.1 (fun _ => 0) 16 0 (by omega) (Or.inl rfl)
      (fun k hk => absurd hk (by omega)),
   sampled_set_spec.2.2.1 (Function.update (fun _ => 0) 1 16) 16 0 (by omega)
      (by rw [show probeIdx 16 0 = 1 from by decide]; simp)
      (fun k hk => absurd hk (by omega)),
   sampled_set_spec.2.2.2.1 (fun _ => 0) 16 0 (by omega) rfl (by decide)
      (fun k hk => absurd hk (by omega)),
   sampled_set_spec.2.2.2.2 (fun _ => 7) 16
      (fun k _ => ⟨by norm_num, by norm_num⟩)⟩

/-! ### Claims C1 and C2: re-entrancy and host-allocation failure -/

/-- C1, counterexample to the claim as stated: a nested (guarded) malloc
returns NULL without calling the host allocator (here the host would
return address 16), and a nested free never reaches the host release. -/
theorem nested_calls_not_forwarded_cex :
    (malloc ⟨.NONE, false, 4096⟩ ⟨⟨0, false, 0⟩, true, fun _ => 0, fun _ => 0⟩
        5 16 []).map (fun o => (o.ret, o.host_called)) = some (0, false) ∧
    ((0 : Nat), false) ≠ ((16 : Nat), true) ∧
    (free ⟨.NONE, false, 4096⟩ ⟨⟨0, false, 0⟩, true, fun _ => 0, fun _ => 0⟩
        16).host_freed = false :=
  ⟨rfl, by decide, rfl⟩

/-- C1 (amended): a call made while the thread-local guard is set is
short-circuited, not forwarded: nested malloc immediately returns NULL
with no host call, no record and no state change, and nested free (of a
non-null address) returns without calling the host release, with no
record and no state change. -/
theorem nested_calls_shortcircuit :
    (∀ (cfg : Config) (st : GlobalState) (size host_ret : Nat)
      (draws : List Int), st.t_in_wrapper = true →
      malloc cfg st size host_ret draws =
        some { ret := 0, host_called := false, record := none,
               state := st, draws := draws }) ∧
    (∀ (cfg : Config) (st : GlobalState) (ptr : Nat),
      st.t_in_wrapper = true → ptr ≠ 0 →
      free cfg st ptr = { host_freed := false, record := none, state := st }) := by
  constructor
  · intro cfg st size host_ret draws h
    rw [malloc, if_pos h]
  · intro cfg st ptr h hp
    rw [free, if_neg hp, if_pos h]

/-- C1 witness: the short-circuit theorem at a concrete nested call. -/
theorem nested_calls_shortcircuit_witness :
    (malloc ⟨.NONE, false, 4096⟩ ⟨⟨0, false, 0⟩, true, fun _ => 0, fun _ => 0⟩
        5 16 [] =
      some { ret := 0, host_called := false, record := none,
             state := ⟨⟨0, false, 0⟩, true, fun _ => 0, fun _ => 0⟩,
             draws := [] }) ∧
    (free ⟨.NONE, false, 4096⟩ ⟨⟨0, false, 0⟩, true, fun _ => 0, fun _ => 0⟩ 16 =
      { host_freed := false, record := none,
        state := ⟨⟨0, false, 0⟩, true, fun _ => 0, fun _ => 0⟩ }) :=
  ⟨nested_calls_shortcircuit.1 ⟨.NONE, false, 4096⟩
      ⟨⟨0, false, 0⟩, true, fun _ => 0, fun _ => 0⟩ 5 16 [] rfl,
   nested_calls_shortcircuit.2 ⟨.NONE, false, 4096⟩
      ⟨⟨0, false, 0⟩, true, fun _ => 0, fun _ => 0⟩ 16 rfl (by decide)⟩

/-- C2, counterexample to the claim as stated: when the host allocator
returns null for a 5-byte request, both byte accumulators stay at 0 —
they are NOT incremented by the requested size (the increments sit after
the null check in the code). -/
theorem host_null_accumulators_cex :
    (malloc ⟨.NONE, false, 4096⟩ ⟨⟨0, false, 0⟩, false, fun _ => 0, fun _ => 0⟩
        5 0 []).map (fun o =>
          (o.state.tstate.pois_bytes_until_next,
           o.state.tstate.hash_running_bytes)) = some (0, 0) ∧
    ((0 : Int), (0 : Int)) ≠ ((5 : Int), (5 : Int)) :=
  ⟨rfl, by decide⟩

/-- C2 (amended): on host-allocation failure the wrapper propagates null
unchanged, emits no record, leaves the guard clear, and leaves the whole
thread state — in particular both byte accumulators — unchanged. -/
theorem host_null_propagation :
    ∀ (cfg : Config) (st : GlobalState) (size : Nat) (draws : List Int),
      st.t_in_wrapper = false →
      malloc cfg st size 0 draws =
        some { ret := 0, host_called := true, record := none,
               state := st, draws := draws } := by
  intro cfg st size draws h
  rcases st with ⟨t, iw, sp, sh⟩
  dsimp only at h
  subst h
  rfl

/-- C2 witness: host failure at a concrete call. -/
theorem host_null_propagation_witness :
    malloc ⟨.NONE, false, 4096⟩ ⟨⟨0, false, 0⟩, false, fun _ => 0, fun _ => 0⟩
        5 0 [] =
      some { ret := 0, host_called := true, record := none,
             state := ⟨⟨0, false, 0⟩, false, fun _ => 0, fun _ => 0⟩,
             draws := [] } :=
  host_null_propagation ⟨.NONE, false, 4096⟩
    ⟨⟨0, false, 0⟩, false, fun _ => 0, fun _ => 0⟩ 5 [] rfl

/-! ### Claims C7, C8, C10: emission per scheme -/

/-- C7, counterexample to the claim as stated: with scheme HYBRID a
100-byte allocation at address 32 emits nothing and its free emits
nothing, while under NONE the same calls emit a MALLOC and a FREE
record — the reserved schemes do not behave like NONE. -/
theorem reserved_schemes_cex :
    (malloc ⟨.HYBRID_SMALL_POISSON_LARGE_HASH, false, 4096⟩
        ⟨⟨0, false, 0⟩, false, fun _ => 0, fun _ => 0⟩ 100 32 []).map
      (fun o => o.record) = some none ∧
    (malloc ⟨.NONE, false, 4096⟩
        ⟨⟨0, false, 0⟩, false, fun _ => 0, fun _ => 0⟩ 100 32 []).map
      (fun o => o.record) = some (some (.single 32 100 100)) ∧
    (some (MallocRecord.single 32 100 100) : Option MallocRecord) ≠ none ∧
    (free ⟨.HYBRID_SMALL_POISSON_LARGE_HASH, false, 4096⟩
        ⟨⟨0, false, 0⟩, false, fun _ => 0, fun _ => 0⟩ 32).record = none ∧
    (free ⟨.NONE, false, 4096⟩
        ⟨⟨0, false, 0⟩, false, fun _ => 0, fun _ => 0⟩ 32).record =
      some (.single 32) :=
  ⟨rfl, rfl, by decide, rfl, rfl⟩

/-- C7 (amended): in single-scheme mode the reserved schemes HYBRID and
PAGE_HASH are wired to emit nothing at all — every allocation reports
weight 0 so no MALLOC record is printed, and no release ever logs a FREE
record (unlike NONE, which logs every non-zero-size allocation and every
non-null release). -/
theorem reserved_schemes_silent :
    ∀ (cfg : Config) (st : GlobalState) (size host_ret ptr : Nat)
      (draws : List Int),
      cfg.g_combined_mode = false →
      (cfg.g_scheme = .HYBRID_SMALL_POISSON_LARGE_HASH ∨
        cfg.g_scheme = .PAGE_HASH) →
      (malloc cfg st size host_ret draws).map (fun o => o.record) = some none ∧
      (free cfg st ptr).record = none := by
  intro cfg st size host_ret ptr draws hcomb hsch
  rcases cfg with ⟨sc, cm, M⟩
  dsimp only at hcomb hsch
  subst hcomb
  constructor
  · rcases hsch with h | h <;> subst h <;>
      by_cases hw : st.t_in_wrapper = true <;>
      by_cases hr : host_ret = 0 <;>
      simp [malloc, hw, hr]
  · rcases hsch with h | h <;> subst h <;>
      by_cases hp : ptr = 0 <;>
      by_cases hw : st.t_in_wrapper = true <;>
      simp [free, hp, hw]

/-- C7 witness: the silence theorem at a concrete PAGE_HASH call. -/
theorem reserved_schemes_silent_witness :
    (malloc ⟨.PAGE_HASH, false, 4096⟩
        ⟨⟨0, false, 0⟩, false, fun _ => 0, fun _ => 0⟩ 100 32 []).map
      (fun o => o.record) = some none ∧
    (free ⟨.PAGE_HASH, false, 4096⟩
        ⟨⟨0, false, 0⟩, false, fun _ => 0, fun _ => 0⟩ 32).record = none :=
  reserved_schemes_silent ⟨.PAGE_HASH, false, 4096⟩
    ⟨⟨0, false, 0⟩, false, fun _ => 0, fun _ => 0⟩ 100 32 32 [] rfl (Or.inr rfl)

/-- C8, counterexample to the claim as stated: the NONE-mode MALLOC line
carries TWO numeric fields after the address — the actual size and the
reported size (printf "%zu, %zu") — not the single reported-size field
of the claimed four-field format. -/
theorem none_record_format_cex :
    (malloc ⟨.NONE, false, 4096⟩
        ⟨⟨0, false, 0⟩, false, fun _ => 0, fun _ => 0⟩ 100 32 []).map
      (fun o => o.record.map MallocRecord.numericFields) =
      some (some [100, 100]) ∧
    ([100, 100] : List Int) ≠ [100] :=
  ⟨rfl, by decide⟩

/-- C8 (amended): in single-scheme NONE mode every successful non-zero
size allocation emits the five-field record MALLOC, ts, addr,
actual_size, reported_size, in which the reported size equals the
requested size (the weight field is present, not omitted). -/
theorem none_record_format :
    ∀ (M : Int) (st : GlobalState) (size host_ret : Nat) (draws : List Int),
      st.t_in_wrapper = false → host_ret ≠ 0 → size ≠ 0 →
      (malloc ⟨.NONE, false, M⟩ st size host_ret draws).map
          (fun o => o.record) =
        some (some (.single host_ret size size)) ∧
      (MallocRecord.single host_ret size size).numericFields =
        [(size : Int), (size : Int)] := by
  intro M st size host_ret draws hw hr hs
  have hsz : ((size : Nat) : Int) ≠ 0 := Int.natCast_ne_zero.mpr hs
  constructor
  · simp [malloc, hw, hr, hsz]
  · rfl

/-- C8 witness: the amended format theorem at a concrete call. -/
theorem none_record_format_witness :
    (malloc ⟨.NONE, false, 4096⟩
        ⟨⟨0, false, 0⟩, false, fun _ => 0, fun _ => 0⟩ 100 32 []).map
      (fun o => o.record) = some (some (.single 32 100 100)) ∧
    (MallocRecord.single 32 100 100).numericFields = [(100 : Int), (100 : Int)] :=
  none_record_format 4096 ⟨⟨0, false, 0⟩, false, fun _ => 0, fun _ => 0⟩
    100 32 [] rfl (by decide) (by decide)

/-- C10: under scheme NONE a successful size-0 allocation emits no
record (emission is gated on a non-zero reported size, and NONE reports
the requested size), while every non-zero-size successful allocation
does emit its record. -/
theorem none_zero_size_no_record :
    (∀ (M : Int) (st : GlobalState) (host_ret : Nat) (draws : List Int),
      st.t_in_wrapper = false → host_ret ≠ 0 →
      (malloc ⟨.NONE, false, M⟩ st 0 host_ret draws).map
        (fun o => o.record) = some none) ∧
    (∀ (M : Int) (st : GlobalState) (size host_ret : Nat) (draws : List Int),
      st.t_in_wrapper = false → host_ret ≠ 0 → size ≠ 0 →
      (malloc ⟨.NONE, false, M⟩ st size host_ret draws).map
        (fun o => o.record) = some (some (.single host_ret size size))) := by
  constructor
  · intro M st host_ret draws hw hr
    simp [malloc, hw, hr]
  · intro M st size host_ret draws hw hr hs
    have hsz : ((size : Nat) : Int) ≠ 0 := Int.natCast_ne_zero.mpr hs
    simp [malloc, hw, hr, hsz]

/-- C10 witness: a concrete size-0 NONE allocation emits nothing while a
concrete 100-byte one emits its record. -/
theorem none_zero_size_no_record_witness :
    (malloc ⟨.NONE, false, 4096⟩
        ⟨⟨0, false, 0⟩, false, fun _ => 0, fun _ => 0⟩ 0 32 []).map
      (fun o => o.record) = some none ∧
    (malloc ⟨.NONE, false, 4096⟩
        ⟨⟨0, false, 0⟩, false, fun _ => 0, fun _ => 0⟩ 100 32 []).map
      (fun o => o.record) = some (some (.single 32 100 100)) :=
  ⟨none_zero_size_no_record.1 4096
      ⟨⟨0, false, 0⟩, false, fun _ => 0, fun _ => 0⟩ 32 [] rfl (by decide),
   none_zero_size_no_record.2 4096
      ⟨⟨0, false, 0⟩, false, fun _ => 0, fun _ => 0⟩ 100 32 [] rfl (by decide)
      (by decide)⟩

/-! ### Claim C6: hash-mode allocation/release agreement -/

/-- In single-scheme hash mode an allocation emits a record exactly when
the address hash fires AND the accumulated byte weight is non-zero. -/
lemma malloc_hash_record (M : Int) (st : GlobalState) (size p : Nat)
    (draws : List Int) (hw : st.t_in_wrapper = false) (hp : p ≠ 0) :
    (malloc ⟨.STATELESS_HASH, false, M⟩ st size p draws).map
        (fun o => o.record.isSome) =
      some (was_sampled_hash p &&
        !(st.tstate.hash_running_bytes + (size : Int) == 0)) := by
  by_cases hf : xorshiftAddr p &&& DEFAULT_HASH_MASK = 0
  · by_cases hz : st.tstate.hash_running_bytes + (size : Int) = 0
    · simp [malloc, sample_hash, was_sampled_hash, hw, hp, hf, hz]
    · simp [malloc, sample_hash, was_sampled_hash, hw, hp, hf, hz]
  · simp [malloc, sample_hash, was_sampled_hash, hw, hp, hf]

/-- In single-scheme hash mode a release logs exactly when the address
hash fires (the decision is recomputed from the address alone). -/
lemma free_hash_record (M : Int) (st : GlobalState) (p : Nat)
    (hw : st.t_in_wrapper = false) (hp : p ≠ 0) :
    (free ⟨.STATELESS_HASH, false, M⟩ st p).record.isSome =
      was_sampled_hash p := by
  cases hf : was_sampled_hash p <;> simp [free, hw, hp, hf]

/-- C6, counterexample to the claim as stated: address 341 is selected
by the hash, yet a size-0 allocation returning 341 from a fresh thread
(accumulated weight 0) emits NO record while the release of 341 DOES
emit one — allocation and release disagree. -/
theorem hash_alloc_free_agree_cex :
    was_sampled_hash 341 = true ∧
    (malloc ⟨.STATELESS_HASH, false, 4096⟩
        ⟨⟨0, false, 0⟩, false, fun _ => 0, fun _ => 0⟩ 0 341 []).map
      (fun o => o.record) = some none ∧
    (free ⟨.STATELESS_HASH, false, 4096⟩
        ⟨⟨0, false, 0⟩, false, fun _ => 0, fun _ => 0⟩ 341).record =
      some (.single 341) :=
  ⟨by decide, rfl, rfl⟩

/-- C6 (amended): in single-scheme hash mode the release of address p
emits iff the address-hash predicate fires on p, and the allocation
emits iff the predicate fires AND the accumulated weight
(hash_running_bytes + size) is non-zero; hence whenever that weight is
non-zero, allocation and release agree (both emit or both skip), the
zero-weight fire being the one divergence. -/
theorem hash_alloc_free_agree :
    (∀ (M : Int) (st : GlobalState) (size p : Nat) (draws : List Int),
      st.t_in_wrapper = false → p ≠ 0 →
      (malloc ⟨.STATELESS_HASH, false, M⟩ st size p draws).map
          (fun o => o.record.isSome) =
        some (was_sampled_hash p &&
          !(st.tstate.hash_running_bytes + (size : Int) == 0))) ∧
    (∀ (M : Int) (st : GlobalState) (p : Nat),
      st.t_in_wrapper = false → p ≠ 0 →
      (free ⟨.STATELESS_HASH, false, M⟩ st p).record.isSome =
        was_sampled_hash p) ∧
    (∀ (M : Int) (st st₂ : GlobalState) (size p : Nat) (draws : List Int),
      st.t_in_wrapper = false → st₂.t_in_wrapper = false → p ≠ 0 →
      st.tstate.hash_running_bytes + (size : Int) ≠ 0 →
      (malloc ⟨.STATELESS_HASH, false, M⟩ st size p draws).map
          (fun o => o.record.isSome) =
        some ((free ⟨.STATELESS_HASH, false, M⟩ st₂ p).record.isSome)) := by
  refine ⟨fun M st size p draws hw hp => malloc_hash_record M st size p draws hw hp,
    fun M st p hw hp => free_hash_record M st p hw hp,
    fun M st st₂ size p draws hw hw2 hp hz => ?_⟩
  rw [malloc_hash_record M st size p draws hw hp,
    free_hash_record M st₂ p hw2 hp]
  have hb : (st.tstate.hash_running_bytes + (size : Int) == 0) = false := by
    simpa using hz
  rw [hb]
  simp

/-- C6 witness: the amended theorem at address 341 (hash fires) with a
1-byte allocation (non-zero weight), and at the release of 341. -/
theorem hash_alloc_free_agree_witness :
    (malloc ⟨.STATELESS_HASH, false, 4096⟩
        ⟨⟨0, false, 0⟩, false, fun _ => 0, fun _ => 0⟩ 1 341 []).map
      (fun o => o.record.isSome) =
      some (was_sampled_hash 341 && !((0 : Int) + ((1 : Nat) : Int) == 0)) ∧
    (free ⟨.STATELESS_HASH, false, 4096⟩
        ⟨⟨0, false, 0⟩, false, fun _ => 0, fun _ => 0⟩ 341).record.isSome =
      was_sampled_hash 341 :=
  ⟨hash_alloc_free_agree.1 4096
      ⟨⟨0, false, 0⟩, false, fun _ => 0, fun _ => 0⟩ 1 341 [] rfl (by decide),
   hash_alloc_free_agree.2.1 4096
      ⟨⟨0, false, 0⟩, false, fun _ => 0, fun _ => 0⟩ 341 rfl (by decide)⟩

end Sampler
